import Mathlib

/-!
# Verification of the appointment recorder backend (`src/app.py`)

Shallow embedding of the parts of `src/app.py` that the claims refer to:

* `truncate_text` (app.py lines 182-188);
* `naive_placeholder_summary` (app.py lines 191-240), together with
  faithful models of the Python string primitives it uses
  (`str.strip`, `str.lower`, `str.replace`, `str.splitlines`,
  `textwrap.dedent`);
* `call_openai_summary` (app.py lines 244-322, modern-client branch);
* the transcription session manager: `start_transcription_session`
  (72-94), `stream_transcription` (730-792),
  `get_transcription_events` (795-811), `end_transcription_session`
  (137-153) / `end_transcription` (814-822).

Strings are modelled as `List Char`; the process-wide `active_sessions`
dict as an association list; `datetime.now()` as a `Nat` clock passed
explicitly; the calls to `random.*` as an explicitly passed oracle record
whose well-formedness captures the ranges the Python RNG draws from.
-/

namespace AppRec

/-! ## Python string primitives -/

/-- The characters Python's `str.strip()` removes (`str.isspace` on the
ASCII range that occurs in this program). -/
def isPyWS (c : Char) : Bool :=
  c == ' ' || c == '\t' || c == '\n' || c == '\r' || c == '\x0b' || c == '\x0c'

/-- Python `s.strip()`: drop whitespace from both ends. -/
def pyStrip (l : List Char) : List Char :=
  ((l.dropWhile isPyWS).reverse.dropWhile isPyWS).reverse

/-- `str.strip()` on a Lean `String`. -/
def pyStripStr (s : String) : String :=
  ⟨pyStrip s.data⟩

/-- Python slice `s[:i]` for a possibly negative index `i`. -/
def pySliceTo (s : List Char) (i : Int) : List Char :=
  if 0 ≤ i then s.take i.toNat else s.take (s.length - i.natAbs)

/-- Python slice `s[-n:]` (the final `n` characters, or all of `s` when
it is shorter than `n`). -/
def pyLastN (s : List Char) (n : Nat) : List Char :=
  s.drop (s.length - n)

/-- Python `str.lower`, restricted to the ASCII letters that occur in
this program's keyword lists. -/
def pyLower (l : List Char) : List Char :=
  l.map Char.toLower

/-- `startsWith pat s` is Python `s.startswith(pat)`. -/
def startsWith : List Char → List Char → Bool
  | [], _ => true
  | _ :: _, [] => false
  | a :: as, b :: bs => a == b && startsWith as bs

/-- `hasSub hay needle` is Python `needle in hay` (substring test). -/
def hasSub (hay needle : List Char) : Bool :=
  startsWith needle hay ||
    match hay with
    | [] => false
    | _ :: t => hasSub t needle

/-- Python `s.replace("\n\n", "\n")` (the only `replace` call in the
program, app.py 196): left-to-right, non-overlapping. -/
def replaceNN : List Char → List Char
  | '\n' :: '\n' :: rest => '\n' :: replaceNN rest
  | c :: rest => c :: replaceNN rest
  | [] => []

/-- Python `str.splitlines` on the line boundaries that occur here
(`\n`, `\r`, `\r\n`).  A trailing line break yields a trailing empty
line, which the only caller filters away, matching CPython. -/
def splitLines : List Char → List Char → List (List Char)
  | acc, [] => [acc.reverse]
  | acc, '\r' :: '\n' :: rest => acc.reverse :: splitLines [] rest
  | acc, '\r' :: rest => acc.reverse :: splitLines [] rest
  | acc, '\n' :: rest => acc.reverse :: splitLines [] rest
  | acc, c :: rest => splitLines (c :: acc) rest

/-- Split on a single character (the line structure `textwrap.dedent`'s
`re.MULTILINE` regexes operate on, i.e. `\n` boundaries only). -/
def splitOnChar (c : Char) : List Char → List (List Char)
  | [] => [[]]
  | x :: xs =>
    if x = c then [] :: splitOnChar c xs
    else
      match splitOnChar c xs with
      | [] => [[x]]
      | l :: ls => (x :: l) :: ls

/-- Join lines with `\n` (inverse of `splitOnChar '\n'`). -/
def joinNL : List (List Char) → List Char
  | [] => []
  | [l] => l
  | l :: ls => l ++ '\n' :: joinNL ls

/-! ### `textwrap.dedent` -/

/-- A character counted as indentation by `textwrap.dedent`
(`[ \t]` in its regexes). -/
def isIndentChar (c : Char) : Bool :=
  c == ' ' || c == '\t'

/-- The leading whitespace run of a line. -/
def lineIndent (l : List Char) : List Char :=
  l.takeWhile isIndentChar

/-- A line matched by dedent's `^[ \t]+$` (non-empty, all blanks):
such lines are normalized to empty. -/
def isWSOnlyLine (l : List Char) : Bool :=
  !l.isEmpty && l.all isIndentChar

/-- A line containing a character other than space/tab (the lines whose
indents participate in the margin computation). -/
def hasContent (l : List Char) : Bool :=
  !(l.all isIndentChar)

/-- Longest common prefix of two character lists (the net effect of
dedent's margin-merging loop). -/
def commonPfx : List Char → List Char → List Char
  | a :: as, b :: bs => if a = b then a :: commonPfx as bs else []
  | _, _ => []

/-- One step of dedent's margin loop: whitespace-only and empty lines
are skipped, the first content line seeds the margin, later ones shrink
it to the common prefix. -/
def marginStep (m : Option (List Char)) (l : List Char) : Option (List Char) :=
  if hasContent l then
    match m with
    | none => some (lineIndent l)
    | some mm => some (commonPfx mm (lineIndent l))
  else m

/-- The margin `textwrap.dedent` computes over normalized lines. -/
def dedentMargin (ls : List (List Char)) : Option (List Char) :=
  ls.foldl marginStep none

/-- Strip the margin from one line (dedent's `(?m)^margin` removal:
lines not starting with the margin are left alone). -/
def stripMargin (m l : List Char) : List Char :=
  if startsWith m l then l.drop m.length else l

/-- The lines `textwrap.dedent` works on: split at `\n` and normalize
whitespace-only lines to empty (`_whitespace_only_re.sub('', text)`). -/
def dedentLines (s : List Char) : List (List Char) :=
  (splitOnChar '\n' s).map (fun l => if isWSOnlyLine l then [] else l)

/-- `textwrap.dedent`: normalize whitespace-only lines to empty, compute
the common margin of the remaining lines, and remove it (only when the
margin is non-empty, matching `if margin:`). -/
def dedent (s : List Char) : List Char :=
  match dedentMargin (dedentLines s) with
  | some m =>
    if m ≠ [] then joinNL ((dedentLines s).map (stripMargin m))
    else joinNL (dedentLines s)
  | none => joinNL (dedentLines s)

/-! ## `truncate_text` (app.py 182-188) -/

/-- The literal `"\n\n[...truncated...]\n\n"` inserted by
`truncate_text`; it is 21 characters long. -/
def truncMarker : List Char := "\n\n[...truncated...]\n\n".data

/-- app.py 182-188:
```
def truncate_text(text: str, max_chars: int = 20000) -> str:
    if len(text) <= max_chars:
        return text
    head = text[: max_chars - 1000]
    tail = text[-1000:]
    return head + "\n\n[...truncated...]\n\n" + tail
```
-/
def truncate_text (text : List Char) (max_chars : Nat := 20000) : List Char :=
  if text.length ≤ max_chars then text
  else pySliceTo text ((max_chars : Int) - 1000) ++ truncMarker ++ pyLastN text 1000


/-! ## Transcription session manager (app.py 69-153, 718-822)

`active_sessions` is modelled as an association list keyed by session
id.  `datetime.now()` is an explicit `Nat` clock; `duration` is the
clock difference.  The `random.*` draws in `stream_transcription` are an
explicit oracle (`FeedRng`); its well-formedness states exactly the
ranges the Python RNG draws from (`random.random() < 0.4` as a `Bool`,
`random.choice(mock_texts)`, `random.randint(1, 3)`,
`random.uniform(0.85, 0.98)`). -/

/-- One entry of `session['transcript']` (app.py 778-783). -/
structure TranscriptEntry where
  text : String
  timestamp : Nat
  speakers : List String
  confidence : ℚ
deriving DecidableEq

/-- One value of the `active_sessions` dict (app.py 79-86).  The
`aws_client` handle is an opaque reference to the external client and
is omitted; the `speakers` dict is initialized empty and never used. -/
structure Session where
  start_time : Nat
  transcript : List TranscriptEntry
  speakers : List (String × Bool)
  session_id : String
  is_active : Bool
deriving DecidableEq

/-- The process-wide `active_sessions` dict. -/
abbrev SessionTable := List (String × Session)

/-- `session_id in active_sessions` / `active_sessions[session_id]`. -/
def lookupSession (t : SessionTable) (sid : String) : Option Session :=
  (t.find? (fun p => p.1 == sid)).map Prod.snd

/-- `del active_sessions[session_id]` (keys are unique, so removing
every binding of the key models the dict deletion). -/
def removeSession (t : SessionTable) (sid : String) : SessionTable :=
  t.filter (fun p => p.1 != sid)

/-- `active_sessions[session_id] = s` (dict assignment replaces any
existing binding). -/
def insertSession (t : SessionTable) (sid : String) (s : Session) : SessionTable :=
  (sid, s) :: removeSession t sid

/-- Successful response of `start_transcription_session` (app.py 88-92). -/
structure StartResult where
  session_id : String
  status : String
  note : String
deriving DecidableEq

/-- app.py 72-94, `start_transcription_session`: fails if the AWS
client is unconfigured, otherwise inserts a fresh active session. -/
def start_transcription_session (t : SessionTable) (sid : String) (now : Nat)
    (configured : Bool) : Except String StartResult × SessionTable :=
  if !configured then
    (.error "AWS Transcribe not configured. Please set AWS_ACCESS_KEY_ID and AWS_SECRET_ACCESS_KEY environment variables.", t)
  else
    (.ok ⟨sid, "started",
      "AWS Transcribe session created successfully. Ready for real-time streaming."⟩,
      insertSession t sid ⟨now, [], [], sid, true⟩)

/-- The static phrase list `mock_texts` (app.py 758-771). -/
def mock_texts : List String :=
  ["Hello, how are you today?",
   "I'm doing well, thank you for asking.",
   "What brings you here today?",
   "I have an appointment scheduled.",
   "Let me check your records.",
   "Everything looks good so far.",
   "Do you have any questions?",
   "Thank you for your time.",
   "The patient reports feeling better.",
   "We should schedule a follow-up appointment.",
   "The medication seems to be working well.",
   "Please take this prescription to the pharmacy."]

/-- The outcomes of the `random.*` calls inside one Feed call
(app.py 774-782). -/
structure FeedRng where
  coin : Bool
  text : String
  speaker : Nat
  confidence : ℚ

/-- The ranges the Python RNG draws from: `random.choice(mock_texts)`,
`random.randint(1, 3)`, `random.uniform(0.85, 0.98)`. -/
def FeedRng.WF (r : FeedRng) : Prop :=
  r.text ∈ mock_texts ∧ 1 ≤ r.speaker ∧ r.speaker ≤ 3 ∧
    (85 / 100 : ℚ) ≤ r.confidence ∧ r.confidence ≤ 98 / 100

/-- The entry appended by the synthetic-utterance path (app.py 778-783). -/
def mkMockEntry (r : FeedRng) (now : Nat) : TranscriptEntry :=
  ⟨r.text, now, ["Speaker_" ++ toString r.speaker], r.confidence⟩

/-- Successful JSON response of `POST /transcribe/stream/<sid>`
(app.py 785-790). -/
structure FeedResponse where
  status : String
  session_id : String
  audio_size : Nat
  transcript_count : Nat
deriving DecidableEq

/-- app.py 730-792, `stream_transcription` (Feed).  Errors carry the
message and HTTP status.  The audio chunk is modelled by its byte list;
only emptiness and length are inspected by the code. -/
def stream_transcription (t : SessionTable) (sid : String) (audio : List Nat)
    (now : Nat) (r : FeedRng) : Except (String × Nat) FeedResponse × SessionTable :=
  match lookupSession t sid with
  | none => (.error ("Session not found", 404), t)
  | some s =>
    if audio.length = 0 then (.error ("No audio data provided", 400), t)
    else if 1000 < audio.length ∧ r.coin then
      let s' : Session := { s with transcript := s.transcript ++ [mkMockEntry r now] }
      (.ok ⟨"audio_processed", sid, audio.length, s'.transcript.length⟩,
        insertSession t sid s')
    else
      (.ok ⟨"audio_processed", sid, audio.length, s.transcript.length⟩, t)

/-- Successful JSON response of `POST /transcribe/end/<sid>`
(app.py 148-153). -/
structure EndResult where
  session_id : String
  final_transcript : List TranscriptEntry
  duration : Nat
  total_entries : Nat
deriving DecidableEq

/-- app.py 137-153, `end_transcription_session` (End): unknown id is an
error with no side effect; otherwise the session is removed and the
whole transcript, elapsed duration and entry count are returned. -/
def end_transcription_session (t : SessionTable) (sid : String) (now : Nat) :
    Except String EndResult × SessionTable :=
  match lookupSession t sid with
  | none => (.error "Session not found", t)
  | some s =>
    (.ok ⟨sid, s.transcript, now - s.start_time, s.transcript.length⟩,
      removeSession t sid)

/-- One server-sent event of `GET /transcribe/events/<sid>`
(app.py 803-807). -/
structure ObserveEvent where
  session_id : String
  transcript : List TranscriptEntry
  timestamp : Nat
deriving DecidableEq

/-- Outcome of one iteration of the generator loop in
`get_transcription_events` (app.py 798-809): the loop exits, or sleeps
without emitting, or emits one event and sleeps. -/
inductive ObserveTick where
  | ended
  | silent
  | emit (e : ObserveEvent)
deriving DecidableEq

/-- One iteration of the Observe generator loop: exit when the session
is gone; emit the last five entries only when the transcript is
non-empty (`if session['transcript']:`). -/
def observe_tick (t : SessionTable) (sid : String) (now : Nat) : ObserveTick :=
  match lookupSession t sid with
  | none => .ended
  | some s =>
    if s.transcript = [] then .silent
    else .emit ⟨sid, s.transcript.drop (s.transcript.length - 5), now⟩

/-- The whole Observe stream over a schedule of (table state, clock)
pairs, one per 1-second tick; it ends at the first tick that finds the
session gone. -/
def observe_stream (sid : String) : List (SessionTable × Nat) → List ObserveEvent
  | [] => []
  | (t, now) :: rest =>
    match observe_tick t sid now with
    | .ended => []
    | .silent => observe_stream sid rest
    | .emit e => e :: observe_stream sid rest

/-! ### Concrete sample data shared by witnesses and counterexamples -/

/-- Sample transcript entry. -/
def eA : TranscriptEntry := ⟨"a", 1, ["Speaker_1"], 9 / 10⟩

/-- Sample transcript entry. -/
def eB : TranscriptEntry := ⟨"b", 2, ["Speaker_2"], 95 / 100⟩

/-- Sample session with a two-entry transcript. -/
def sampleSession : Session := ⟨0, [eA, eB], [], "s", true⟩

/-- Sample table holding `sampleSession` under id `"s"`. -/
def sampleTable : SessionTable := [("s", sampleSession)]

/-- Sample RNG oracle outcome. -/
def sampleRng : FeedRng := ⟨true, "Hello, how are you today?", 2, 9 / 10⟩

/-- Sample session whose transcript is empty. -/
def emptySession : Session := ⟨0, [], [], "s", true⟩

/-- Sample table holding only `emptySession`. -/
def emptyTable : SessionTable := [("s", emptySession)]

/-! ## `naive_placeholder_summary` (app.py 191-240)

The function takes the combined text and the processed file count and
renders a fixed `textwrap.dedent(f"...").strip()` template around four
keyword scans.  `summaryBody` below is the f-string after
interpolation, split into named literal segments so that its line
structure is visible to the proofs; concatenating the segments yields
exactly the template at app.py 218-239 (checked by the `example`s
following the definitions). -/

/-- Keyword list for the diagnoses category (app.py 207). -/
def diagKeys : List (List Char) :=
  ["diag".data, "dx".data, "impression".data, "assessment".data]

/-- Keyword list for the medications category (app.py 208). -/
def medKeys : List (List Char) :=
  ["med".data, "rx".data, "prescrib".data, "dosage".data]

/-- Keyword list for the allergies category (app.py 209). -/
def allergyKeys : List (List Char) :=
  ["allerg".data, "reaction".data]

/-- Keyword list for the procedures category (app.py 210). -/
def procKeys : List (List Char) :=
  ["procedure".data, "surgery".data, "operation".data]

/-- app.py 202-203: `low = line.lower()` and
`any(k in low for k in keys)`. -/
def lineMatches (keys : List (List Char)) (l : List Char) : Bool :=
  keys.any (fun k => hasSub (pyLower l) k)

/-- The accumulation loop of `grep` (app.py 200-204): append every
matching line, in order, without deduplication. -/
def grepHits (keys : List (List Char)) : List (List Char) → List (List Char)
  | [] => []
  | l :: ls => if lineMatches keys l then l :: grepHits keys ls else grepHits keys ls

/-- app.py 199-205: the inner `grep`, returning `hits[:8]`. -/
def grep (lines : List (List Char)) (keys : List (List Char)) : List (List Char) :=
  (grepHits keys lines).take 8

/-- app.py 197: `[l.strip() for l in sample.splitlines() if l.strip()]`. -/
def linesOf (sample : List Char) : List (List Char) :=
  ((splitLines [] sample).map pyStrip).filter (fun l => !l.isEmpty)

/-- app.py 196-197: the non-empty stripped lines of
`combined_text[:1200].replace("\n\n", "\n")`. -/
def summaryLines (combined_text : List Char) : List (List Char) :=
  linesOf (replaceNN (combined_text.take 1200))

/-- app.py 212-215: `'\n'.join('- ' + d for d in hits) or '- (none
detected in sample)'` (the empty join is falsy, selecting the
default). -/
def bulletBlock (hits : List (List Char)) : List Char :=
  if hits.isEmpty then "- (none detected in sample)".data
  else joinNL (hits.map (fun h => '-' :: ' ' :: h))

/-- Template segment: start of the second line of the f-string body, up
to the interpolated file count (8-space indent included). -/
def tplA : List Char :=
  "        Placeholder health summary (no API key detected). Processed ".data

/-- Template segment: rest of the second line after the file count. -/
def tplB : List Char := " PDF file(s).".data

/-- Template segment: from the blank line after the header line up to
the interpolated diagnoses block. -/
def tplC : List Char :=
  "\n        High-level overview:\n        - The records include multiple visits and findings. This is only a rough, automated draft.\n\n        Possible diagnoses/assessments noted:\n        ".data

/-- Template segment between the diagnoses and medications blocks. -/
def tplD : List Char := "\n\n        Possible medications mentioned:\n        ".data

/-- Template segment between the medications and allergies blocks. -/
def tplE : List Char := "\n\n        Possible allergies:\n        ".data

/-- Template segment between the allergies and procedures blocks. -/
def tplF : List Char := "\n\n        Possible procedures:\n        ".data

/-- Template segment after the procedures block (to the end of the
f-string, including the trailing whitespace-only line). -/
def tplG : List Char :=
  "\n\n        Next steps:\n        - Provide an OPENAI_API_KEY to enable an AI-generated, plain-language health history summary.\n        - Verify details directly in the source PDFs before using clinically.\n        ".data

/-- The second line of the f-string body (the header line carrying the
interpolated document count). -/
def line2 (file_count : Nat) : List Char :=
  tplA ++ (toString file_count).data ++ tplB

/-- Everything after the header line's terminating newline. -/
def summaryTail (combined_text : List Char) (file_count : Nat) : List Char :=
  tplC ++ bulletBlock (grep (summaryLines combined_text) diagKeys) ++
    tplD ++ bulletBlock (grep (summaryLines combined_text) medKeys) ++
    tplE ++ bulletBlock (grep (summaryLines combined_text) allergyKeys) ++
    tplF ++ bulletBlock (grep (summaryLines combined_text) procKeys) ++ tplG

/-- The interpolated f-string at app.py 218-239 (argument of
`textwrap.dedent`): a leading newline, the header line, and the rest. -/
def summaryBody (combined_text : List Char) (file_count : Nat) : List Char :=
  '\n' :: line2 file_count ++ '\n' :: summaryTail combined_text file_count

/-- app.py 191-240: `naive_placeholder_summary`. -/
def naive_placeholder_summary (combined_text : List Char) (file_count : Nat) : List Char :=
  pyStrip (dedent (summaryBody combined_text file_count))

/-- The header line of the output without its 8-space template indent:
`"Placeholder health summary (no API key detected). Processed {n} PDF
file(s)."`. -/
def countLine (n : Nat) : List Char :=
  tplA.drop 8 ++ ((toString n).data ++ tplB)

/-! ## `call_openai_summary` (app.py 244-322)

The modern-client branch (app.py 265-291) is embedded; the legacy
branch (293-320) differs only in the client API used, not in the
candidate order or fallback logic.  The two environment variables and
the per-model chat-completion call are explicit parameters; the oracle
returns the raw message content or the stringified exception.  The
result carries, besides the Python return tuple `(ok, content,
model_used)`, the instrumentation trace of models actually attempted,
used to state the "each candidate at most once, in order" part. -/

/-- The fixed fallback list of model identifiers (app.py 258-262). -/
def fallback_models : List String := ["gpt-5", "gpt-5-mini", "gpt-4o-mini"]

/-- app.py 253-262: the operator-supplied override first (when the
stripped `OPENAI_MODEL` is non-empty), then the fixed priority list. -/
def candidate_models (env_model : String) : List String :=
  (if env_model ≠ "" then [env_model] else []) ++ fallback_models

/-- The loop of app.py 267-291: try each candidate once, in order; the
first success returns the stripped content and the model used; after
the last failure return `(False, message with the last error, "")`
(`str(None)` would be interpolated if the list were empty, which it
never is). -/
def tryModels (api : String → Except String String) :
    List String → Option String → (Bool × String × String) × List String
  | [], last =>
    ((false, "OpenAI call failed across models. Last error: " ++ last.getD "None", ""), [])
  | m :: ms, _ =>
    match api m with
    | .ok content => ((true, pyStripStr content, m), [m])
    | .error e =>
      let r := tryModels api ms (some e)
      (r.1, m :: r.2)

/-- app.py 244-322, `call_openai_summary`: empty (stripped) API key
fails immediately with `(False, "", "")` and no model call; otherwise
the candidates are tried in order. -/
def call_openai_summary (api_key_env model_env : String)
    (api : String → Except String String) :
    (Bool × String × String) × List String :=
  if pyStripStr api_key_env = "" then ((false, "", ""), [])
  else tryModels api (candidate_models (pyStripStr model_env)) none

/-- A sample chat-completion oracle: "gpt-5" fails, everything else
succeeds. -/
def apiW : String → Except String String := fun m =>
  if m = "gpt-5" then .error "boom" else .ok "summary text"

/-! ## Reachable states of the session table (claim C8)

The server process starts with an empty `active_sessions` dict; every
mutation of the dict is performed by one of the three route handlers
(Start / Feed / End — the Observe generator never writes).  Wall-clock
time never decreases between calls, and the RNG outcomes of a Feed call
lie in the ranges `FeedRng.WF` states. -/

/-- The per-entry part of the invariant: simulated confidence in
[0.85, 0.98] and a timestamp no later than the current clock. -/
def entryInv (clock : Nat) (e : TranscriptEntry) : Prop :=
  (85 / 100 : ℚ) ≤ e.confidence ∧ e.confidence ≤ 98 / 100 ∧ e.timestamp ≤ clock

/-- The per-session part of the invariant: the session is active, every
entry satisfies `entryInv`, and the transcript is in non-decreasing
timestamp order. -/
def sessionInv (clock : Nat) (s : Session) : Prop :=
  s.is_active = true ∧ (∀ e ∈ s.transcript, entryInv clock e) ∧
    s.transcript.Pairwise (fun a b => a.timestamp ≤ b.timestamp)

/-- The table-wide invariant. -/
def tableInv (clock : Nat) (t : SessionTable) : Prop :=
  ∀ p ∈ t, sessionInv clock p.2

/-- A snapshot of the process: the session table plus the current
wall-clock time. -/
structure SysState where
  table : SessionTable
  clock : Nat

/-- The states the session table can reach: empty at process start,
then any interleaving of Start, Feed and End calls at non-decreasing
clock values, with the Feed RNG outcomes in their documented ranges. -/
inductive Reachable : SysState → Prop where
  | init : Reachable ⟨[], 0⟩
  | start (st : SysState) (sid : String) (now : Nat) (cfg : Bool) :
      Reachable st → st.clock ≤ now →
      Reachable ⟨(start_transcription_session st.table sid now cfg).2, now⟩
  | feed (st : SysState) (sid : String) (audio : List Nat) (now : Nat) (r : FeedRng) :
      Reachable st → st.clock ≤ now → r.WF →
      Reachable ⟨(stream_transcription st.table sid audio now r).2, now⟩
  | endStep (st : SysState) (sid : String) (now : Nat) :
      Reachable st → st.clock ≤ now →
      Reachable ⟨(end_transcription_session st.table sid now).2, now⟩

/-! ## Lemmas -/

set_option maxRecDepth 40000 in
/-- Sanity check: with no category hits the body is exactly the
interpolated template of app.py 218-239. -/
example :
    summaryBody [] 3 =
      "\n        Placeholder health summary (no API key detected). Processed 3 PDF file(s).\n\n        High-level overview:\n        - The records include multiple visits and findings. This is only a rough, automated draft.\n\n        Possible diagnoses/assessments noted:\n        - (none detected in sample)\n\n        Possible medications mentioned:\n        - (none detected in sample)\n\n        Possible allergies:\n        - (none detected in sample)\n\n        Possible procedures:\n        - (none detected in sample)\n\n        Next steps:\n        - Provide an OPENAI_API_KEY to enable an AI-generated, plain-language health history summary.\n        - Verify details directly in the source PDFs before using clinically.\n        ".data := by
  decide

set_option maxRecDepth 80000 in
/-- Sanity check: full evaluation on input hitting three categories
(output cross-checked against CPython; every template line carries the
common 8-space margin, so `dedent` strips it). -/
example :
    naive_placeholder_summary
        "Diagnosis: hypertension\nRx: aspirin 81mg\n\nSurgery planned".data 2 =
      "Placeholder health summary (no API key detected). Processed 2 PDF file(s).\n\nHigh-level overview:\n- The records include multiple visits and findings. This is only a rough, automated draft.\n\nPossible diagnoses/assessments noted:\n- Diagnosis: hypertension\n\nPossible medications mentioned:\n- Rx: aspirin 81mg\n\nPossible allergies:\n- (none detected in sample)\n\nPossible procedures:\n- Surgery planned\n\nNext steps:\n- Provide an OPENAI_API_KEY to enable an AI-generated, plain-language health history summary.\n- Verify details directly in the source PDFs before using clinically.".data := by
  decide

set_option maxRecDepth 80000 in
/-- Sanity check: full evaluation on input with two diagnosis hits
(output cross-checked against CPython; the second interpolated bullet
sits at column 0, the margin collapses to empty and `dedent` removes
nothing — only `strip()` trims the ends). -/
example :
    naive_placeholder_summary "Diagnosis: a\nDx: b".data 1 =
      "Placeholder health summary (no API key detected). Processed 1 PDF file(s).\n\n        High-level overview:\n        - The records include multiple visits and findings. This is only a rough, automated draft.\n\n        Possible diagnoses/assessments noted:\n        - Diagnosis: a\n- Dx: b\n\n        Possible medications mentioned:\n        - (none detected in sample)\n\n        Possible allergies:\n        - (none detected in sample)\n\n        Possible procedures:\n        - (none detected in sample)\n\n        Next steps:\n        - Provide an OPENAI_API_KEY to enable an AI-generated, plain-language health history summary.\n        - Verify details directly in the source PDFs before using clinically.".data := by
  decide

/-! ### Lemmas about the string primitives -/

lemma digitChar_ne_nl (m : Nat) : Nat.digitChar m ≠ '\n' := by
  by_cases h : m < 16
  · interval_cases m <;> decide
  · unfold Nat.digitChar
    repeat rw [if_neg (by omega)]
    decide

lemma toDigitsCore_no_nl :
    ∀ (fuel n : Nat) (acc : List Char), '\n' ∉ acc →
      '\n' ∉ Nat.toDigitsCore 10 fuel n acc := by
  intro fuel
  induction fuel with
  | zero =>
    intro n acc h
    simpa [Nat.toDigitsCore] using h
  | succ f ih =>
    intro n acc h
    have hcons : '\n' ∉ Nat.digitChar (n % 10) :: acc := by
      intro hmem
      rcases List.mem_cons.mp hmem with heq | hmem'
      · exact digitChar_ne_nl _ heq.symm
      · exact h hmem'
    simp only [Nat.toDigitsCore]
    by_cases h0 : n / 10 = 0
    · rw [if_pos h0]
      exact hcons
    · rw [if_neg h0]
      exact ih _ _ hcons

lemma toString_nat_no_nl (n : Nat) : '\n' ∉ (toString n).data := by
  show '\n' ∉ Nat.toDigitsCore 10 (n + 1) n []
  exact toDigitsCore_no_nl (n + 1) n [] (List.not_mem_nil _)

lemma splitOnChar_cons_self (c : Char) (xs : List Char) :
    splitOnChar c (c :: xs) = [] :: splitOnChar c xs := by
  simp [splitOnChar]

lemma splitOnChar_append_cons {c : Char} {a : List Char} (b : List Char)
    (hnotin : c ∉ a) : splitOnChar c (a ++ c :: b) = a :: splitOnChar c b := by
  induction a with
  | nil => simpa using splitOnChar_cons_self c b
  | cons x a' ih =>
    have hxc : ¬ x = c := fun h => hnotin (h ▸ List.mem_cons_self x a')
    have ih' := ih (fun h => hnotin (List.mem_cons_of_mem x h))
    rw [List.cons_append, splitOnChar, if_neg hxc, ih']

lemma joinNL_cons_cons (x y : List Char) (ys : List (List Char)) :
    joinNL (x :: y :: ys) = x ++ '\n' :: joinNL (y :: ys) := rfl

lemma mem_joinNL {l : List Char} : ∀ {ls : List (List Char)}, l ∈ ls → l <:+: joinNL ls := by
  intro ls
  induction ls with
  | nil => intro h; cases h
  | cons x ls ih =>
    intro h
    rcases List.mem_cons.mp h with rfl | h'
    · cases ls with
      | nil => exact List.infix_rfl
      | cons y ys =>
        rw [joinNL_cons_cons]
        exact ⟨[], '\n' :: joinNL (y :: ys), by simp⟩
    · cases ls with
      | nil => cases h'
      | cons y ys =>
        rw [joinNL_cons_cons]
        exact ((ih h').trans (List.infix_cons List.infix_rfl)).trans
          (List.suffix_append x _).isInfix

lemma lineIndent_all (l : List Char) : (lineIndent l).all isIndentChar = true := by
  unfold lineIndent
  induction l with
  | nil => rfl
  | cons x xs ih =>
    by_cases hx : isIndentChar x = true
    · simp [List.takeWhile_cons, hx, ih]
    · simp [List.takeWhile_cons, hx]

lemma all_commonPfx {p : Char → Bool} :
    ∀ {a : List Char} (b : List Char), a.all p = true → (commonPfx a b).all p = true := by
  intro a
  induction a with
  | nil => intro b _; rfl
  | cons x as ih =>
    intro b h
    cases b with
    | nil => rfl
    | cons y bs =>
      simp only [commonPfx]
      by_cases hxy : x = y
      · rw [if_pos hxy]
        simp only [List.all_cons, Bool.and_eq_true] at h ⊢
        exact ⟨h.1, ih bs h.2⟩
      · rw [if_neg hxy]
        rfl

lemma marginStep_all {acc : Option (List Char)} {l : List Char}
    (h : ∀ x, acc = some x → x.all isIndentChar = true) :
    ∀ x, marginStep acc l = some x → x.all isIndentChar = true := by
  intro x hx
  unfold marginStep at hx
  by_cases hc : hasContent l = true
  · rw [if_pos hc] at hx
    cases acc with
    | none =>
      cases hx
      exact lineIndent_all l
    | some mm =>
      cases hx
      exact all_commonPfx _ (h mm rfl)
  · rw [if_neg hc] at hx
    exact h x hx

lemma foldl_marginStep_all :
    ∀ (ls : List (List Char)) (acc : Option (List Char)),
      (∀ x, acc = some x → x.all isIndentChar = true) →
      ∀ m, ls.foldl marginStep acc = some m → m.all isIndentChar = true
  | [], _, h, m, hm => h m hm
  | _ :: ls, acc, h, m, hm =>
    foldl_marginStep_all ls (marginStep acc _) (marginStep_all h) m hm

lemma dedentMargin_all {ls : List (List Char)} {m : List Char}
    (h : dedentMargin ls = some m) : m.all isIndentChar = true :=
  foldl_marginStep_all ls none (fun _ hx => by cases hx) m h

lemma startsWith_le_of_break {p : Char → Bool} {c : Char} {v : List Char}
    (hc : p c = false) :
    ∀ (m w : List Char), m.all p = true →
      startsWith m (w ++ (c :: v)) = true → m.length ≤ w.length := by
  intro m
  induction m with
  | nil => intro w _ _; exact Nat.zero_le _
  | cons x m' ih =>
    intro w hall hsw
    cases w with
    | nil =>
      simp only [List.nil_append, startsWith, Bool.and_eq_true, beq_iff_eq] at hsw
      simp only [List.all_cons, Bool.and_eq_true] at hall
      rw [hsw.1, hc] at hall
      cases hall.1
    | cons b w' =>
      simp only [List.cons_append, startsWith, Bool.and_eq_true] at hsw
      simp only [List.all_cons, Bool.and_eq_true] at hall
      exact Nat.succ_le_succ (ih w' hall.2 hsw.2)

lemma suffix_stripMargin {m w u : List Char} {c : Char} {v : List Char}
    (hm : m.all isIndentChar = true) (hu : u = c :: v)
    (hc : isIndentChar c = false) : u <:+ stripMargin m (w ++ u) := by
  unfold stripMargin
  by_cases hsw : startsWith m (w ++ u) = true
  · rw [if_pos hsw]
    have hle : m.length ≤ w.length :=
      startsWith_le_of_break hc m w hm (by rw [← hu]; exact hsw)
    rw [List.drop_append_of_le_length hle]
    exact List.suffix_append _ _
  · rw [if_neg hsw]
    exact List.suffix_append _ _

lemma infix_dedent {s u w : List Char} {c : Char} {v : List Char}
    (hmem : (w ++ u) ∈ dedentLines s) (hu : u = c :: v)
    (hc : isIndentChar c = false) : u <:+: dedent s := by
  have husuff : u <:+: (w ++ u) := (List.suffix_append w u).isInfix
  cases hdm : dedentMargin (dedentLines s) with
  | none =>
    simp only [dedent, hdm]
    exact husuff.trans (mem_joinNL hmem)
  | some m =>
    simp only [dedent, hdm]
    by_cases hne : m ≠ []
    · rw [if_pos hne]
      have hmm : m.all isIndentChar = true := dedentMargin_all hdm
      have hmem' : stripMargin m (w ++ u) ∈ (dedentLines s).map (stripMargin m) :=
        List.mem_map_of_mem _ hmem
      exact ((suffix_stripMargin hmm hu hc).isInfix).trans (mem_joinNL hmem')
    · rw [if_neg hne]
      exact husuff.trans (mem_joinNL hmem)

lemma infix_dropWhile_aux {p : Char → Bool} {c : Char} {v b : List Char}
    (hc : p c = false) :
    ∀ a : List Char, (c :: v) <:+: List.dropWhile p (a ++ ((c :: v) ++ b)) := by
  intro a
  induction a with
  | nil =>
    simp only [List.nil_append, List.cons_append, List.dropWhile_cons, hc,
      Bool.false_eq_true, if_false]
    exact ⟨[], b, by simp⟩
  | cons x a' ih =>
    simp only [List.cons_append, List.dropWhile_cons]
    by_cases hx : p x = true
    · rw [if_pos hx]
      exact ih
    · rw [if_neg hx]
      exact List.infix_cons ⟨a', b, by simp⟩

lemma infix_dropWhile {p : Char → Bool} {u s : List Char} {c : Char} {v : List Char}
    (h : u <:+: s) (hu : u = c :: v) (hc : p c = false) : u <:+: s.dropWhile p := by
  rcases h with ⟨a, b, hab⟩
  subst hab
  rw [hu, List.append_assoc]
  exact infix_dropWhile_aux hc a

lemma infix_pyStrip {u s : List Char} {c d : Char} {v w : List Char}
    (h : u <:+: s) (hu1 : u = c :: v) (hc : isPyWS c = false)
    (hu2 : u = w ++ [d]) (hd : isPyWS d = false) : u <:+: pyStrip s := by
  have h1 : u <:+: s.dropWhile isPyWS := infix_dropWhile h hu1 hc
  have h2 : u.reverse <:+: (s.dropWhile isPyWS).reverse := List.reverse_infix.mpr h1
  have hurev : u.reverse = d :: w.reverse := by rw [hu2]; simp
  have h3 : u.reverse <:+: ((s.dropWhile isPyWS).reverse).dropWhile isPyWS :=
    infix_dropWhile h2 hurev hd
  have h4 := List.reverse_infix.mpr h3
  rw [List.reverse_reverse] at h4
  simpa [pyStrip] using h4

/-! ### Lemmas about the summary template -/

lemma noNL_line2 (n : Nat) : '\n' ∉ line2 n := by
  unfold line2
  intro h
  rcases List.mem_append.mp h with h1 | h2
  · rcases List.mem_append.mp h1 with ha | hd
    · exact absurd ha (by decide)
    · exact toString_nat_no_nl n hd
  · exact absurd h2 (by decide)

lemma line2_not_wsonly (n : Nat) : isWSOnlyLine (line2 n) = false := by
  unfold isWSOnlyLine line2
  have h : tplA.all isIndentChar = false := by decide
  simp [List.all_append, h]

lemma mem_dedentLines_line2 (t : List Char) (n : Nat) :
    line2 n ∈ dedentLines (summaryBody t n) := by
  unfold dedentLines summaryBody
  rw [List.cons_append, splitOnChar_cons_self,
    splitOnChar_append_cons _ (noNL_line2 n),
    List.map_cons, List.map_cons,
    if_neg (by decide : ¬ isWSOnlyLine ([] : List Char) = true),
    if_neg (by simp [line2_not_wsonly n])]
  exact List.mem_cons_of_mem _ (List.mem_cons_self _ _)

lemma line2_decomp (n : Nat) : line2 n = tplA.take 8 ++ countLine n := by
  unfold line2 countLine
  conv_rhs => rw [← List.append_assoc, List.take_append_drop]
  rw [List.append_assoc]

lemma countLine_cons (n : Nat) :
    countLine n = 'P' ::
      ("laceholder health summary (no API key detected). Processed ".data ++
        ((toString n).data ++ tplB)) := by
  unfold countLine
  rw [show tplA.drop 8 =
    'P' :: "laceholder health summary (no API key detected). Processed ".data
    from by decide]
  rfl

lemma countLine_snoc (n : Nat) :
    countLine n =
      (tplA.drop 8 ++ ((toString n).data ++ " PDF file(s)".data)) ++ ['.'] := by
  unfold countLine
  rw [show tplB = " PDF file(s)".data ++ ['.'] from by decide]
  simp [List.append_assoc]

lemma countLine_ne_nil (n : Nat) : countLine n ≠ [] := by
  rw [countLine_cons n]
  exact List.cons_ne_nil _ _

/-- The header line of the rendered summary (with the interpolated
document count) survives dedent and strip: it is an infix of the
output, for every input text. -/
lemma countLine_infix_summary (t : List Char) (n : Nat) :
    countLine n <:+: naive_placeholder_summary t n := by
  have hmem : (tplA.take 8 ++ countLine n) ∈ dedentLines (summaryBody t n) := by
    rw [← line2_decomp n]
    exact mem_dedentLines_line2 t n
  have h1 : countLine n <:+: dedent (summaryBody t n) :=
    infix_dedent hmem (countLine_cons n) (by decide)
  show countLine n <:+: pyStrip (dedent (summaryBody t n))
  exact infix_pyStrip h1 (countLine_cons n) (by decide) (countLine_snoc n) (by decide)

lemma grepHits_eq_filter (keys : List (List Char)) :
    ∀ ls : List (List Char), grepHits keys ls = ls.filter (lineMatches keys) := by
  intro ls
  induction ls with
  | nil => rfl
  | cons l ls ih =>
    by_cases h : lineMatches keys l = true
    · simp [grepHits, List.filter_cons, h, ih]
    · simp [grepHits, List.filter_cons, h, ih]

/-- After deleting a key, looking it up finds nothing. -/
lemma lookup_remove_self (t : SessionTable) (sid : String) :
    lookupSession (removeSession t sid) sid = none := by
  unfold lookupSession removeSession
  cases hf : List.find? (fun p => p.1 == sid) (t.filter fun p => p.1 != sid) with
  | none => rfl
  | some p =>
    have h1 := List.find?_some hf
    have h2 := (List.mem_filter.mp (List.mem_of_find?_eq_some hf)).2
    simp only [beq_iff_eq] at h1
    simp only [bne_iff_ne, ne_eq, decide_eq_true_eq] at h2
    exact absurd h1 h2

lemma tryModels_all_fail (api : String → Except String String) :
    ∀ (ms : List String) (mlast : String) (last : Option String) (e : String),
      (∀ m ∈ ms, ∃ err, api m = .error err) → api mlast = .error e →
      tryModels api (ms ++ [mlast]) last =
        ((false, "OpenAI call failed across models. Last error: " ++ e, ""),
          ms ++ [mlast]) := by
  intro ms
  induction ms with
  | nil =>
    intro mlast last e _ hlast
    simp [tryModels, hlast]
  | cons m ms ih =>
    intro mlast last e hall hlast
    obtain ⟨err, herr⟩ := hall m (List.mem_cons_self _ _)
    have ih' := ih mlast (some err) e
      (fun x hx => hall x (List.mem_cons_of_mem _ hx)) hlast
    simp [tryModels, herr, ih']

lemma tryModels_first_success (api : String → Except String String) :
    ∀ (pre : List String) (m : String) (post : List String) (c : String)
      (last : Option String),
      (∀ x ∈ pre, ∃ err, api x = .error err) → api m = .ok c →
      tryModels api (pre ++ m :: post) last = ((true, pyStripStr c, m), pre ++ [m]) := by
  intro pre
  induction pre with
  | nil =>
    intro m post c last _ hok
    simp [tryModels, hok]
  | cons x pre ih =>
    intro m post c last hall hok
    obtain ⟨err, herr⟩ := hall x (List.mem_cons_self _ _)
    have ih' := ih m post c (some err)
      (fun y hy => hall y (List.mem_cons_of_mem _ hy)) hok
    simp [tryModels, herr, ih']

lemma tryModels_trace (api : String → Except String String) :
    ∀ (ms : List String) (last : Option String), (tryModels api ms last).2 <+: ms := by
  intro ms
  induction ms with
  | nil =>
    intro last
    simp [tryModels]
  | cons m ms ih =>
    intro last
    cases hm : api m with
    | ok c =>
      show ((match api m with
        | .ok content => ((true, pyStripStr content, m), [m])
        | .error e =>
          let r := tryModels api ms (some e)
          (r.1, m :: r.2)) : (Bool × String × String) × List String).2 <+: m :: ms
      rw [hm]
      exact ⟨ms, rfl⟩
    | error e =>
      show ((match api m with
        | .ok content => ((true, pyStripStr content, m), [m])
        | .error e =>
          let r := tryModels api ms (some e)
          (r.1, m :: r.2)) : (Bool × String × String) × List String).2 <+: m :: ms
      rw [hm]
      exact List.cons_prefix_cons.mpr ⟨rfl, ih _⟩

lemma entryInv_mono {c c' : Nat} (h : c ≤ c') {e : TranscriptEntry} :
    entryInv c e → entryInv c' e :=
  fun ⟨h1, h2, h3⟩ => ⟨h1, h2, le_trans h3 h⟩

lemma sessionInv_mono {c c' : Nat} (h : c ≤ c') {s : Session} :
    sessionInv c s → sessionInv c' s :=
  fun ⟨ha, he, hp⟩ => ⟨ha, fun e hme => entryInv_mono h (he e hme), hp⟩

lemma tableInv_mono {c c' : Nat} (h : c ≤ c') {t : SessionTable} :
    tableInv c t → tableInv c' t :=
  fun hi p hp => sessionInv_mono h (hi p hp)

lemma tableInv_remove {c : Nat} {t : SessionTable} {sid : String}
    (hi : tableInv c t) : tableInv c (removeSession t sid) :=
  fun p hp => hi p (List.mem_filter.mp hp).1

/-- A session found in a table satisfying the invariant satisfies the
per-session invariant. -/
lemma lookup_some_inv {c : Nat} {t : SessionTable} {sid : String} {s : Session}
    (hi : tableInv c t) (hl : lookupSession t sid = some s) : sessionInv c s := by
  unfold lookupSession at hl
  cases hf : t.find? (fun p => p.1 == sid) with
  | none => rw [hf] at hl; cases hl
  | some p =>
    rw [hf] at hl
    simp only [Option.map_some', Option.some_inj] at hl
    subst hl
    exact hi p (List.mem_of_find?_eq_some hf)

/-- The table invariant holds in every reachable state. -/
lemma reachable_tableInv {st : SysState} (h : Reachable st) :
    tableInv st.clock st.table := by
  induction h with
  | init =>
    intro p hp
    cases hp
  | start st sid now cfg hr hc ih =>
    show tableInv now (start_transcription_session st.table sid now cfg).2
    cases cfg with
    | false => simpa [start_transcription_session] using tableInv_mono hc ih
    | true =>
      simp only [start_transcription_session, Bool.not_true, Bool.false_eq_true,
        if_false]
      intro p hp
      rcases List.mem_cons.mp hp with rfl | hp'
      · exact ⟨rfl, fun e he => absurd he (List.not_mem_nil e), List.Pairwise.nil⟩
      · exact sessionInv_mono hc (ih p (List.mem_filter.mp hp').1)
  | feed st sid audio now r hr hc hwf ih =>
    show tableInv now (stream_transcription st.table sid audio now r).2
    cases hl : lookupSession st.table sid with
    | none => simpa [stream_transcription, hl] using tableInv_mono hc ih
    | some s =>
      by_cases h0 : audio.length = 0
      · simpa [stream_transcription, hl, h0] using tableInv_mono hc ih
      · by_cases hcond : 1000 < audio.length ∧ r.coin
        · have hs : sessionInv st.clock s := lookup_some_inv ih hl
          have hred : (stream_transcription st.table sid audio now r).2 =
              insertSession st.table sid
                { s with transcript := s.transcript ++ [mkMockEntry r now] } := by
            simp [stream_transcription, hl, h0, hcond]
          rw [hred]
          intro p hp
          rcases List.mem_cons.mp hp with rfl | hp'
          · refine ⟨hs.1, ?_, ?_⟩
            · intro e he
              rcases List.mem_append.mp he with he1 | he2
              · exact entryInv_mono hc (hs.2.1 e he1)
              · rcases List.mem_singleton.mp he2 with rfl
                exact ⟨hwf.2.2.2.1, hwf.2.2.2.2, le_refl now⟩
            · refine List.pairwise_append.mpr ⟨hs.2.2, by simp, ?_⟩
              intro a ha b hb
              rcases List.mem_singleton.mp hb with rfl
              exact le_trans (hs.2.1 a ha).2.2 hc
          · exact sessionInv_mono hc (ih p (List.mem_filter.mp hp').1)
        · simpa [stream_transcription, hl, h0, hcond] using tableInv_mono hc ih
  | endStep st sid now hr hc ih =>
    show tableInv now (end_transcription_session st.table sid now).2
    cases hl : lookupSession st.table sid with
    | none => simpa [end_transcription_session, hl] using tableInv_mono hc ih
    | some s =>
      have hred : (end_transcription_session st.table sid now).2 =
          removeSession st.table sid := by
        simp [end_transcription_session, hl]
      rw [hred]
      exact tableInv_remove (tableInv_mono hc ih)

/-! ## Theorems for claim C1 -/

/-- **C1, counterexample.**  The claim says the truncated output has
total length at most the budget.  For the 1001-character string
`'a' * 1001` and budget 1000 the code returns
`"" + "\n\n[...truncated...]\n\n" + ('a' * 1000)`, of length 1021 > 1000. -/
theorem C1_length_exceeds_budget :
    ¬ ((truncate_text (List.replicate 1001 'a') 1000).length ≤ 1000) := by
  have hlen : (List.replicate 1001 'a').length = 1001 := List.length_replicate ..
  have hm : truncMarker.length = 21 := by decide
  have h : (truncate_text (List.replicate 1001 'a') 1000).length = 1021 := by
    unfold truncate_text
    rw [if_neg (by omega)]
    simp only [List.length_append, pySliceTo, pyLastN, hlen, hm]
    norm_num
  omega

/-- **C1, amended.**  For every string and budget of at least 1000
characters: a string within the budget is returned unchanged; a longer
string is mapped to its first `budget − 1000` characters, followed by
the 21-character truncation marker, followed by its last 1000
characters, so the output has length `budget + 21` (the budget plus the
marker), not at most the budget. -/
theorem C1_truncate_text_amended (text : List Char) (budget : Nat)
    (hb : 1000 ≤ budget) :
    (text.length ≤ budget → truncate_text text budget = text) ∧
    (budget < text.length →
      truncate_text text budget =
        text.take (budget - 1000) ++ truncMarker ++ pyLastN text 1000 ∧
      text.take (budget - 1000) <+: truncate_text text budget ∧
      pyLastN text 1000 <:+ truncate_text text budget ∧
      truncMarker <:+: truncate_text text budget ∧
      (truncate_text text budget).length = budget + truncMarker.length) := by
  constructor
  · intro h
    simp [truncate_text, h]
  · intro h
    have hform : truncate_text text budget =
        text.take (budget - 1000) ++ truncMarker ++ pyLastN text 1000 := by
      have hnotle : ¬ text.length ≤ budget := by omega
      have hcast : ((budget : Int) - 1000).toNat = budget - 1000 := by omega
      have hnonneg : (0 : Int) ≤ (budget : Int) - 1000 := by
        have : (1000 : Int) ≤ (budget : Int) := by exact_mod_cast hb
        omega
      simp [truncate_text, pySliceTo, hnotle, hnonneg, hcast]
    refine ⟨hform, ?_, ?_, ?_, ?_⟩
    · rw [hform, List.append_assoc]
      exact List.prefix_append _ _
    · rw [hform]
      exact List.suffix_append _ _
    · rw [hform]
      exact List.infix_append _ _ _
    · rw [hform]
      have h1 : (text.take (budget - 1000)).length = budget - 1000 := by
        rw [List.length_take]
        omega
      have h2 : (pyLastN text 1000).length = 1000 := by
        simp only [pyLastN, List.length_drop]
        omega
      simp only [List.length_append, h1, h2]
      omega

/-- Witness for `C1_truncate_text_amended` at the concrete input of the
counterexample: budget 1000, input `'a' * 1001`. -/
theorem C1_truncate_text_amended_witness :
    (truncate_text (List.replicate 1001 'a') 1000).length =
      1000 + truncMarker.length := by
  have h := (C1_truncate_text_amended (List.replicate 1001 'a') 1000
    (by norm_num)).2 (by simp only [List.length_replicate]; omega)
  exact h.2.2.2.2

/-! ## Theorems for claim C2 -/

/-- **C2.**  End on an unknown session id fails with "Session not
found" and leaves the table untouched; End on a known session removes
it from the table and returns the entire accumulated transcript, the
elapsed duration since the session's start, and the total entry count;
afterwards Feed, Observe and End on the same id all report "not
found". -/
theorem C2_end_session (t : SessionTable) (sid : String) (now now2 now3 : Nat)
    (audio : List Nat) (r : FeedRng) :
    (lookupSession t sid = none →
      (end_transcription_session t sid now).1 = .error "Session not found" ∧
      (end_transcription_session t sid now).2 = t) ∧
    (∀ s, lookupSession t sid = some s →
      (end_transcription_session t sid now).1 =
        .ok ⟨sid, s.transcript, now - s.start_time, s.transcript.length⟩ ∧
      lookupSession (end_transcription_session t sid now).2 sid = none ∧
      (stream_transcription (end_transcription_session t sid now).2 sid audio now2 r).1 =
        .error ("Session not found", 404) ∧
      observe_tick (end_transcription_session t sid now).2 sid now2 = .ended ∧
      (end_transcription_session (end_transcription_session t sid now).2 sid now3).1 =
        .error "Session not found") := by
  constructor
  · intro h
    simp [end_transcription_session, h]
  · intro s h
    have hr : (end_transcription_session t sid now).2 = removeSession t sid := by
      simp [end_transcription_session, h]
    have hnone : lookupSession (removeSession t sid) sid = none :=
      lookup_remove_self t sid
    refine ⟨by simp [end_transcription_session, h], ?_, ?_, ?_, ?_⟩
    · rw [hr]; exact hnone
    · rw [hr]; simp [stream_transcription, hnone]
    · rw [hr]; simp [observe_tick, hnone]
    · rw [hr]; simp [end_transcription_session, hnone]

/-- Witness for `C2_end_session` on a concrete two-entry session. -/
theorem C2_end_session_witness :
    (end_transcription_session sampleTable "s" 5).1 =
      Except.ok ⟨"s", sampleSession.transcript, 5 - sampleSession.start_time,
        sampleSession.transcript.length⟩ ∧
    lookupSession (end_transcription_session sampleTable "s" 5).2 "s" = none ∧
    (stream_transcription (end_transcription_session sampleTable "s" 5).2 "s"
        [0] 6 sampleRng).1 = .error ("Session not found", 404) ∧
    observe_tick (end_transcription_session sampleTable "s" 5).2 "s" 6 = .ended ∧
    (end_transcription_session (end_transcription_session sampleTable "s" 5).2 "s" 7).1 =
      .error "Session not found" :=
  (C2_end_session sampleTable "s" 5 6 7 [0] sampleRng).2 sampleSession rfl

/-! ## Theorems for claim C3 -/

/-- **C3, counterexample.**  The claim says the Observe stream emits a
payload at every 1-second interval while the session exists.  For a
session that exists with an empty transcript, a tick of the generator
loop emits nothing (`if session['transcript']:`), and a two-tick
schedule during which the session exists throughout yields no events at
all. -/
theorem C3_silent_tick_while_session_exists :
    (lookupSession emptyTable "s").isSome = true ∧
    observe_tick emptyTable "s" 1 = .silent ∧
    observe_stream "s" [(emptyTable, 1), (emptyTable, 2)] = [] :=
  ⟨by decide, by decide, by decide⟩

/-- **C3, amended.**  While the session exists, each 1-second tick of
the Observe stream emits a payload carrying the session id, the most
recent (last five) slice of the transcript and a timestamp **iff the
transcript is non-empty** (an existing session with an empty transcript
produces no event that tick); emission stops the instant the session no
longer exists in the table. -/
theorem C3_observe_tick_amended (t : SessionTable) (sid : String) (now : Nat) :
    (lookupSession t sid = none → observe_tick t sid now = .ended) ∧
    (∀ s, lookupSession t sid = some s →
      (s.transcript = [] → observe_tick t sid now = .silent) ∧
      (s.transcript ≠ [] →
        observe_tick t sid now =
          .emit ⟨sid, s.transcript.drop (s.transcript.length - 5), now⟩)) := by
  constructor
  · intro h
    simp [observe_tick, h]
  · intro s h
    constructor
    · intro he
      simp [observe_tick, h, he]
    · intro he
      simp [observe_tick, h, he]

/-- Witness for `C3_observe_tick_amended` on a concrete session. -/
theorem C3_observe_tick_amended_witness :
    observe_tick sampleTable "s" 3 =
      .emit ⟨"s", sampleSession.transcript.drop (sampleSession.transcript.length - 5), 3⟩ :=
  ((C3_observe_tick_amended sampleTable "s" 3).2 sampleSession rfl).2 (by simp [sampleSession])

/-! ## Theorems for claim C4 -/

/-- **C4, counterexample.**  The claim says every Feed call on a
present session id reports the received byte count and the transcript
count.  A Feed call on a present session with an empty request body
instead fails with "No audio data provided" (HTTP 400) and reports
neither. -/
theorem C4_empty_body_is_error :
    (lookupSession sampleTable "s").isSome = true ∧
    (stream_transcription sampleTable "s" [] 5 sampleRng).1 =
      .error ("No audio data provided", 400) :=
  ⟨by decide, rfl⟩

/-- **C4, amended.**  Every Feed call carrying a **non-empty** body on
a session id present in the table reports the number of audio bytes
received and the session's current transcript entry count (whether or
not a synthetic entry was produced by that call); Feed on an unknown
session id fails with "Session not found". -/
theorem C4_feed_amended (t : SessionTable) (sid : String) (audio : List Nat)
    (now : Nat) (r : FeedRng) :
    (lookupSession t sid = none →
      (stream_transcription t sid audio now r).1 = .error ("Session not found", 404)) ∧
    (∀ s, lookupSession t sid = some s → audio ≠ [] →
      (stream_transcription t sid audio now r).1 =
        .ok ⟨"audio_processed", sid, audio.length,
          if 1000 < audio.length ∧ r.coin then s.transcript.length + 1
          else s.transcript.length⟩) := by
  constructor
  · intro h
    simp [stream_transcription, h]
  · intro s h hne
    have hlen : ¬ audio.length = 0 := fun h0 => hne (List.length_eq_zero.mp h0)
    by_cases hc : 1000 < audio.length ∧ r.coin
    · simp [stream_transcription, h, hlen, hc]
    · simp [stream_transcription, h, hlen, hc]

/-- Witness for `C4_feed_amended`: a one-byte chunk on a present
session reports size 1 and the unchanged entry count. -/
theorem C4_feed_amended_witness :
    (stream_transcription sampleTable "s" [0] 5 sampleRng).1 =
      .ok ⟨"audio_processed", "s", ([0] : List Nat).length,
        if 1000 < ([0] : List Nat).length ∧ sampleRng.coin then
          sampleSession.transcript.length + 1
        else sampleSession.transcript.length⟩ :=
  (C4_feed_amended sampleTable "s" [0] 5 sampleRng).2 sampleSession rfl
    (by decide)

/-! ## Theorems for claim C5 -/

/-- **C5.**  The fallback summarizer inspects only the first 1200
characters of its input; every keyword category scan collects, from the
non-empty trimmed lines, exactly the case-insensitively matching lines
truncated to the first 8 — so at most 8 lines, verbatim (a sublist of
the lines, hence in original order, duplicates preserved), each
matching its keys; an empty category renders as
"- (none detected in sample)"; and the supplied document count is
embedded in the output, in the header sentence
"... Processed {n} PDF file(s).". -/
theorem C5_fallback_summarizer (t : List Char) (n : Nat) (keys : List (List Char)) :
    naive_placeholder_summary t n = naive_placeholder_summary (t.take 1200) n ∧
    grep (summaryLines t) keys = ((summaryLines t).filter (lineMatches keys)).take 8 ∧
    (grep (summaryLines t) keys).length ≤ 8 ∧
    (grep (summaryLines t) keys).Sublist (summaryLines t) ∧
    (grep (summaryLines t) keys).all (lineMatches keys) = true ∧
    bulletBlock [] = "- (none detected in sample)".data ∧
    ("Processed ".data ++ ((toString n).data ++ " PDF file(s).".data)) <:+:
      naive_placeholder_summary t n := by
  refine ⟨?_, ?_, ?_, ?_, ?_, rfl, ?_⟩
  · have hls : summaryLines t = summaryLines (t.take 1200) := by
      unfold summaryLines
      rw [List.take_take, min_self]
    unfold naive_placeholder_summary summaryBody summaryTail
    rw [hls]
  · unfold grep
    rw [grepHits_eq_filter]
  · exact List.length_take_le _ _
  · unfold grep
    rw [grepHits_eq_filter]
    exact (List.take_sublist _ _).trans (List.filter_sublist _)
  · rw [List.all_eq_true]
    intro x hx
    unfold grep at hx
    rw [grepHits_eq_filter] at hx
    exact (List.mem_filter.mp ((List.take_sublist 8 _).subset hx)).2
  · have hsplit : countLine n =
        "Placeholder health summary (no API key detected). ".data ++
          ("Processed ".data ++ ((toString n).data ++ tplB)) := by
      unfold countLine
      rw [show tplA.drop 8 =
        "Placeholder health summary (no API key detected). ".data ++
          "Processed ".data from by decide]
      simp [List.append_assoc]
    have h2 : ("Processed ".data ++ ((toString n).data ++ " PDF file(s).".data)) <:+:
        countLine n := by
      rw [hsplit, show tplB = " PDF file(s).".data from rfl]
      exact ⟨"Placeholder health summary (no API key detected). ".data, [], by simp⟩
    exact h2.trans (countLine_infix_summary t n)

/-! ## Theorems for claim C6 -/

/-- **C6.**  The fallback summarizer is deterministic — equal input
text and equal document count give byte-identical output (the embedding
is a pure function of exactly these two arguments, matching the absence
of any randomness or ambient state in app.py 191-240) — and it never
fails: it always produces (non-empty) output. -/
theorem C6_fallback_deterministic (t₁ t₂ : List Char) (n₁ n₂ : Nat)
    (ht : t₁ = t₂) (hn : n₁ = n₂) :
    naive_placeholder_summary t₁ n₁ = naive_placeholder_summary t₂ n₂ ∧
    naive_placeholder_summary t₁ n₁ ≠ [] := by
  subst ht
  subst hn
  refine ⟨rfl, ?_⟩
  intro h0
  have h := countLine_infix_summary t₁ n₁
  rw [h0] at h
  exact countLine_ne_nil n₁ (List.length_eq_zero.mp (Nat.le_zero.mp h.length_le))

/-- Witness for `C6_fallback_deterministic` at a concrete input. -/
theorem C6_fallback_deterministic_witness :
    naive_placeholder_summary "x".data 1 = naive_placeholder_summary "x".data 1 ∧
    naive_placeholder_summary "x".data 1 ≠ [] :=
  C6_fallback_deterministic "x".data "x".data 1 1 rfl rfl

/-! ## Theorems for claim C7 -/

/-- **C7.**  With no API credential configured (the stripped key is
empty) the client fails immediately as `(False, "", "")`, independently
of the model-call oracle — so no model is called.  Otherwise the
candidate list is the operator override (if present) followed by the
fixed priority list; the models actually attempted form a prefix of
that list (in order, each candidate at most once); the first candidate
that succeeds yields `(True, its stripped content, its identifier)`
with the trial stopping there; and if every candidate fails, the call
returns failure carrying the last underlying error observed (that of
the final candidate, "gpt-4o-mini"). -/
theorem C7_call_openai_summary (key env : String)
    (api : String → Except String String) :
    (pyStripStr key = "" →
      ∀ f : String → Except String String,
        call_openai_summary key env f = ((false, "", ""), [])) ∧
    (pyStripStr key ≠ "" →
      candidate_models (pyStripStr env) =
        (if pyStripStr env ≠ "" then [pyStripStr env] else []) ++
          ["gpt-5", "gpt-5-mini", "gpt-4o-mini"] ∧
      (call_openai_summary key env api).2 <+: candidate_models (pyStripStr env) ∧
      (∀ pre m post c, candidate_models (pyStripStr env) = pre ++ m :: post →
        (∀ x ∈ pre, ∃ err, api x = .error err) → api m = .ok c →
        call_openai_summary key env api = ((true, pyStripStr c, m), pre ++ [m])) ∧
      (∀ e, (∀ x ∈ candidate_models (pyStripStr env), ∃ err, api x = .error err) →
        api "gpt-4o-mini" = .error e →
        (call_openai_summary key env api).1 =
          (false, "OpenAI call failed across models. Last error: " ++ e, ""))) := by
  constructor
  · intro h f
    simp [call_openai_summary, h]
  · intro h
    refine ⟨rfl, ?_, ?_, ?_⟩
    · simp only [call_openai_summary, if_neg h]
      exact tryModels_trace api _ none
    · intro pre m post c hcand hpre hok
      simp only [call_openai_summary, if_neg h]
      rw [hcand]
      exact tryModels_first_success api pre m post c none hpre hok
    · intro e hall hlast
      have hsplit : candidate_models (pyStripStr env) =
          ((if pyStripStr env ≠ "" then [pyStripStr env] else []) ++
            ["gpt-5", "gpt-5-mini"]) ++ ["gpt-4o-mini"] := by
        unfold candidate_models fallback_models
        simp [List.append_assoc]
      have hallpre : ∀ x ∈ (if pyStripStr env ≠ "" then [pyStripStr env] else []) ++
          ["gpt-5", "gpt-5-mini"], ∃ err, api x = .error err := by
        intro x hx
        apply hall
        rw [hsplit]
        exact List.mem_append_left _ hx
      simp only [call_openai_summary, if_neg h]
      rw [hsplit, tryModels_all_fail api _ "gpt-4o-mini" none e hallpre hlast]

/-- Witness for `C7_call_openai_summary`: with key "k" and no
override, the first candidate fails and the second wins. -/
theorem C7_call_openai_summary_witness :
    call_openai_summary "k" "" apiW =
      ((true, pyStripStr "summary text", "gpt-5-mini"), ["gpt-5", "gpt-5-mini"]) := by
  refine ((C7_call_openai_summary "k" "" apiW).2 (by decide)).2.2.1 ["gpt-5"]
    "gpt-5-mini" ["gpt-4o-mini"] "summary text" rfl ?_ rfl
  intro x hx
  rw [List.mem_singleton.mp hx]
  exact ⟨"boom", rfl⟩

/-! ## Theorems for claim C8 -/

/-- **C8.**  In every reachable state of the session table: every
session present in the table is active (so every transcript entry was
appended, by a Feed step, while its owning session existed in the table
with `is_active` true — the only step that appends entries requires a
successful lookup); every entry's confidence lies in [0.85, 0.98]; and
a session's entries are in non-decreasing timestamp (insertion) order,
both as stored and as returned by End (`final_transcript`) and by an
Observe emission (the last-five slice). -/
theorem C8_reachable_invariants (st : SysState) (h : Reachable st) :
    (∀ p ∈ st.table, p.2.is_active = true ∧
      (∀ e ∈ p.2.transcript,
        (85 / 100 : ℚ) ≤ e.confidence ∧ e.confidence ≤ 98 / 100) ∧
      p.2.transcript.Pairwise (fun a b => a.timestamp ≤ b.timestamp)) ∧
    (∀ sid now res, (end_transcription_session st.table sid now).1 = .ok res →
      res.final_transcript.Pairwise (fun a b => a.timestamp ≤ b.timestamp)) ∧
    (∀ sid now ev, observe_tick st.table sid now = .emit ev →
      ev.transcript.Pairwise (fun a b => a.timestamp ≤ b.timestamp)) := by
  have hinv := reachable_tableInv h
  refine ⟨?_, ?_, ?_⟩
  · intro p hp
    have hs := hinv p hp
    exact ⟨hs.1, fun e he => ⟨(hs.2.1 e he).1, (hs.2.1 e he).2.1⟩, hs.2.2⟩
  · intro sid now res hres
    cases hl : lookupSession st.table sid with
    | none => simp [end_transcription_session, hl] at hres
    | some s =>
      have hs := lookup_some_inv hinv hl
      simp only [end_transcription_session, hl] at hres
      cases hres
      exact hs.2.2
  · intro sid now ev hev
    cases hl : lookupSession st.table sid with
    | none => simp [observe_tick, hl] at hev
    | some s =>
      have hs := lookup_some_inv hinv hl
      by_cases he : s.transcript = []
      · simp [observe_tick, hl, he] at hev
      · simp only [observe_tick, hl, if_neg he] at hev
        cases hev
        exact List.Pairwise.sublist (List.drop_sublist _ _) hs.2.2

set_option maxRecDepth 8000 in
/-- Witness for `C8_reachable_invariants`: the state reached by Start
at time 1 then a Feed at time 2 with a 1001-byte chunk whose RNG coin
lands true, holding one synthetic entry. -/
theorem C8_reachable_invariants_witness :
    (Session.mk 1 [mkMockEntry sampleRng 2] [] "s" true).is_active = true := by
  have hwf : sampleRng.WF := by
    refine ⟨by decide, by decide, by decide, ?_, ?_⟩ <;> norm_num [sampleRng]
  have h1 : Reachable ⟨(start_transcription_session [] "s" 1 true).2, 1⟩ :=
    Reachable.start ⟨[], 0⟩ "s" 1 true Reachable.init (by decide)
  have h2 : Reachable ⟨(stream_transcription (start_transcription_session [] "s" 1 true).2
      "s" (List.replicate 1001 0) 2 sampleRng).2, 2⟩ :=
    Reachable.feed _ "s" (List.replicate 1001 0) 2 sampleRng h1 (by decide) hwf
  have htab : (stream_transcription (start_transcription_session [] "s" 1 true).2
      "s" (List.replicate 1001 0) 2 sampleRng).2 =
      [("s", Session.mk 1 [mkMockEntry sampleRng 2] [] "s" true)] := rfl
  have hmem : ("s", Session.mk 1 [mkMockEntry sampleRng 2] [] "s" true) ∈
      (stream_transcription (start_transcription_session [] "s" 1 true).2
        "s" (List.replicate 1001 0) 2 sampleRng).2 := by
    rw [htab]
    exact List.mem_singleton_self _
  exact ((C8_reachable_invariants _ h2).1 _ hmem).1

/-! ## Theorems for claim C9 -/

/-- **C9.**  A Feed call on an existing session with a non-empty chunk
of at most 1000 bytes never appends a transcript entry — the
synthetic-utterance path requires the chunk length to exceed 1000 — and
leaves the whole session table (hence the session's transcript and all
other fields) unchanged, while still reporting success with the
received size and the unchanged entry count. -/
theorem C9_small_chunk_frame (t : SessionTable) (sid : String) (audio : List Nat)
    (now : Nat) (r : FeedRng) (s : Session)
    (h : lookupSession t sid = some s) (hne : audio ≠ [])
    (hle : audio.length ≤ 1000) :
    (stream_transcription t sid audio now r).1 =
      .ok ⟨"audio_processed", sid, audio.length, s.transcript.length⟩ ∧
    (stream_transcription t sid audio now r).2 = t := by
  have hlen : ¬ audio.length = 0 := fun h0 => hne (List.length_eq_zero.mp h0)
  have hc : ¬ (1000 < audio.length ∧ r.coin) := fun hcontra =>
    absurd hcontra.1 (by omega)
  simp [stream_transcription, h, hlen, hc]

/-- Witness for `C9_small_chunk_frame` on a concrete one-byte chunk. -/
theorem C9_small_chunk_frame_witness :
    (stream_transcription sampleTable "s" [7] 5 sampleRng).1 =
      .ok ⟨"audio_processed", "s", ([7] : List Nat).length,
        sampleSession.transcript.length⟩ ∧
    (stream_transcription sampleTable "s" [7] 5 sampleRng).2 = sampleTable :=
  C9_small_chunk_frame sampleTable "s" [7] 5 sampleRng sampleSession
    rfl (by decide) (by decide)

/-! ## Theorems for claim C10 -/

/-- **C10.**  A Feed call on an existing, active session with an empty
(zero-byte) body fails with "No audio data provided" (HTTP 400) and
leaves the session table — hence the session's state and transcript —
unchanged. -/
theorem C10_empty_body_error (t : SessionTable) (sid : String) (now : Nat)
    (r : FeedRng) (s : Session) (h : lookupSession t sid = some s)
    (ha : s.is_active = true) :
    (stream_transcription t sid [] now r).1 = .error ("No audio data provided", 400) ∧
    (stream_transcription t sid [] now r).2 = t := by
  simp [stream_transcription, h]

/-- Witness for `C10_empty_body_error` on a concrete session. -/
theorem C10_empty_body_error_witness :
    (stream_transcription sampleTable "s" [] 5 sampleRng).1 =
      .error ("No audio data provided", 400) ∧
    (stream_transcription sampleTable "s" [] 5 sampleRng).2 = sampleTable :=
  C10_empty_body_error sampleTable "s" 5 sampleRng sampleSession
    rfl rfl

end AppRec
